import Mathlib

/-!
Verification development for the talking-head animation engine
(src/src/main.tsx of the repository; the file holds two near-duplicate
drafts of the sequencer, and each embedded definition names the draft
and line range it is translated from).

Conventions of the shallow embedding:
* JavaScript numbers that the claims depend on are modelled as rationals.
* A three.js mesh is reduced to the two fields the facial controllers
  read and write: the morph-target dictionary (name to index) and the
  morph-target influence array.
* Randomness (Math.random) is passed in as an explicit parameter, with
  the hypothesis 0 <= r < 1.
* setInterval / setTimeout / requestAnimationFrame callbacks are
  modelled as explicit step functions driven by a caller.
-/

namespace TalkingHead

/-- Association-list lookup by string key, the model of a JavaScript
object property access object[name]. Returns the first binding. -/
def lookupName (n : String) : List (String × α) → Option α
  | [] => none
  | p :: ps => if p.1 = n then some p.2 else lookupName n ps

/-- A skinned mesh as seen by the morph controllers: the optional
morphTargetDictionary and the optional morphTargetInfluences array
(both can be absent on a three.js mesh). -/
structure Mesh where
  dict : Option (List (String × Nat))
  influences : Option (List ℚ)
deriving DecidableEq

/-- An emotion preset table: emotion name to a list of
(morph name, weight) pairs. Source: CharacterData.morphs.emotions
(main.tsx lines 27-31 and the character literals). -/
abbrev EmotionMap := List (String × List (String × ℚ))

/-- The set of every morph name appearing in any known emotion preset.
Source: main.tsx lines 1163-1169 builds a JS Set from
Object.values(emotionMap); the Set is modelled by dedup, which has the
same membership. -/
def allEmotionMorphs (em : EmotionMap) : List String :=
  ((em.map Prod.snd).flatMap (fun pairs => pairs.map Prod.fst)).dedup

/-- The inner loop of the reset pass of applyEmotion (main.tsx lines
1175-1178): every name that resolves in the dictionary d gets its
influence entry set to 0. -/
def resetFold (d : List (String × Nat)) (names : List String)
    (inf : List ℚ) : List ℚ :=
  names.foldl
    (fun acc nm =>
      match lookupName nm d with
      | some i => acc.set i 0
      | none => acc) inf

/-- The inner loop of the application pass of applyEmotion (main.tsx
lines 1187-1192): every (morph name, weight) pair that resolves in the
dictionary d is written. -/
def applyFold (d : List (String × Nat)) (pairs : List (String × ℚ))
    (inf : List ℚ) : List ℚ :=
  pairs.foldl
    (fun acc p =>
      match lookupName p.1 d with
      | some i => acc.set i p.2
      | none => acc) inf

/-- Reset pass over one mesh: guarded by the presence of both the
dictionary and the influences array. Source: main.tsx lines
1171-1180. -/
def resetMesh (names : List String) (m : Mesh) : Mesh :=
  match m.dict, m.influences with
  | some d, some inf =>
      { m with influences := some (resetFold d names inf) }
  | _, _ => m

/-- Application pass over one mesh, same guard. Source: main.tsx lines
1185-1194. -/
def applyPresetMesh (pairs : List (String × ℚ)) (m : Mesh) : Mesh :=
  match m.dict, m.influences with
  | some d, some inf =>
      { m with influences := some (applyFold d pairs inf) }
  | _, _ => m

/-- The mutable state applyEmotion works on: the list of vrmMeshes and
the module-level currentEmotion string. -/
structure EmotionState where
  meshes : List Mesh
  currentEmotion : String
deriving DecidableEq

/-- Embedding of applyEmotion (main.tsx lines 1157-1199). The source
guard also requires a currentCharacter; the character is implicit here
because its emotion map em is a parameter. Note that the reset pass and
the assignment to currentEmotion happen even when the named emotion is
not a key of the map. -/
def applyEmotion (em : EmotionMap) (emotion : String) (st : EmotionState) :
    EmotionState :=
  if st.meshes = [] then st
  else
    let names := allEmotionMorphs em
    let reset := st.meshes.map (resetMesh names)
    let applied :=
      match lookupName emotion em with
      | some pairs => reset.map (applyPresetMesh pairs)
      | none => reset
    { meshes := applied, currentEmotion := emotion }

end TalkingHead

namespace TalkingHead.LipSync

open TalkingHead

/-- The LipSync driver state (main.tsx lines 627-800): the mesh list,
the vowel to morph-name-list map, the last applied vowel, and whether
the setInterval tick is installed (intervalId !== null). -/
structure State where
  meshes : List Mesh
  lipSyncMap : List (String × List String)
  lastVowel : Option String
  interval : Bool
deriving DecidableEq

/-- Source: isTalking() returns this.intervalId !== null (line 699). -/
def isTalking (st : State) : Bool := st.interval

/-- Morph names of a vowel shape: this.lipSyncMap[v]; the source only
indexes with keys of the map, so a missing key defaults to no names. -/
def shapeNames (st : State) (v : String) : List String :=
  (lookupName v st.lipSyncMap).getD []

/-- Embedding of setMorphs (main.tsx lines 786-799): resolve each shape
name in the dictionary of meshes[0] and write value at that index into
every mesh that has influences. -/
def setMorphs (meshes : List Mesh) (shapeNames : List String) (v : ℚ) :
    List Mesh :=
  match meshes with
  | [] => []
  | m0 :: _ =>
    match m0.dict with
    | none => meshes
    | some d =>
      meshes.map (fun m =>
        { m with
          influences := match m.influences with
            | some inf =>
                some (shapeNames.foldl
                  (fun acc nm =>
                    match lookupName nm d with
                    | some i => acc.set i v
                    | none => acc) inf)
            | none => none })

/-- Embedding of stop() (main.tsx lines 776-784): clear the interval,
zero the last vowel shape, forget it. The source additionally schedules
applyEmotion(currentEmotion) 100 ms later; that delayed call is the
applyEmotion function above and is reasoned about separately. -/
def stop (st : State) : State :=
  let meshes1 :=
    match st.lastVowel with
    | some lv => setMorphs st.meshes (shapeNames st lv) 0
    | none => st.meshes
  { st with interval := false, meshes := meshes1, lastVowel := none }

/-- Embedding of start() (main.tsx lines 702-775): stop a running tick,
bail out on an empty mesh list, search the first mesh owning a
morph-target dictionary; without one, return without installing the
interval; otherwise move that mesh to the front and install the tick. -/
def start (st : State) : State :=
  let st1 := if st.interval then stop st else st
  if st1.meshes.isEmpty then st1
  else
    match st1.meshes.find? (fun m => m.dict.isSome) with
    | none => st1
    | some t =>
        { st1 with meshes := t :: st1.meshes.erase t, interval := true }

/-- The random re-selection loop of the tick (main.tsx lines 762-766):
while the candidate equals lastVowel, draw again. The stream of random
draws is the list of indices; an exhausted stream models a loop that
has not yet terminated and yields none. -/
def pickDifferent (shapes : List String) (last : Option String) :
    List ℕ → Option String
  | [] => none
  | c :: cs =>
    match shapes.get? c with
    | some v => if some v = last then pickDifferent shapes last cs else some v
    | none => pickDifferent shapes last cs

/-- The vowel shapes are the keys of the lip-sync map (line 640). -/
def vowelShapes (st : State) : List String := st.lipSyncMap.map Prod.fst

/-- Embedding of one setInterval tick of start() (main.tsx lines
755-772): zero the previous vowel shape, pick a different vowel, write
its morphs with weight 0.4 + 0.2 * Math.random(). Besides the updated
state it returns the list of setMorphs calls (shape names, value) in
call order. -/
def tick (st : State) (choices : List ℕ) (r : ℚ) :
    State × List (List String × ℚ) :=
  if st.meshes.isEmpty then (st, [])
  else
    let p1 : List Mesh × List (List String × ℚ) :=
      match st.lastVowel with
      | some lv =>
          (setMorphs st.meshes (shapeNames st lv) 0, [(shapeNames st lv, 0)])
      | none => (st.meshes, [])
    match pickDifferent (vowelShapes st) st.lastVowel choices with
    | none => ({ st with meshes := p1.1 }, p1.2)
    | some nv =>
        let value : ℚ := 2/5 + 1/5 * r
        ({ st with meshes := setMorphs p1.1 (shapeNames st nv) value,
                   lastVowel := some nv },
         p1.2 ++ [(shapeNames st nv, value)])

end TalkingHead.LipSync

namespace TalkingHead.IdleBlinker

open TalkingHead

/-- Source: setNextBlink() (main.tsx lines 557-560) with the random
draw r passed explicitly: nextBlinkTime = now + (2000 + r * 6000). -/
def setNextBlink (now r : ℚ) : ℚ := now + (2000 + r * 6000)

/-- The IdleBlinker state (main.tsx lines 541-556). blink models the
in-flight requestAnimationFrame chain started by triggerBlink: the
captured startTime and the captured blink morph indices. -/
structure State where
  nextBlinkTime : ℚ
  isBlinking : Bool
  blink : Option (ℚ × List ℕ)
deriving DecidableEq

/-- blinkIndices (main.tsx lines 582-584): resolve each configured
blink morph name in the dictionary, dropping unresolved names. -/
def blinkIndices (d : List (String × Nat)) (names : List String) : List ℕ :=
  names.filterMap (fun n => lookupName n d)

/-- Embedding of triggerBlink (main.tsx lines 573-624) up to the point
where the first animation frame is scheduled: missing dictionary or no
resolvable blink morph resets isBlinking; otherwise the frame chain is
armed with the captured start time and indices. (The head? none branch
totalizes the meshes[0] access; update only calls this with a nonempty
list.) -/
def triggerBlink (meshes : List Mesh) (names : List String) (now : ℚ)
    (s : State) : State :=
  match meshes.head? with
  | none => { s with isBlinking := false }
  | some m0 =>
    match m0.dict with
    | none => { s with isBlinking := false }
    | some d =>
      let idxs := blinkIndices d names
      if idxs = [] then { s with isBlinking := false }
      else { s with blink := some (now, idxs) }

/-- Embedding of update(time) (main.tsx lines 561-572): an empty mesh
list, an already running blink, active lip-sync, or a clock before
nextBlinkTime all return unchanged; otherwise a blink starts. -/
def update (meshes : List Mesh) (names : List String) (talking : Bool)
    (time : ℚ) (s : State) : State :=
  if meshes.isEmpty ∨ s.isBlinking ∨ talking ∨ time < s.nextBlinkTime then s
  else triggerBlink meshes names time { s with isBlinking := true }

/-- Embedding of one doBlink animation frame (main.tsx lines 594-622):
with elapsed = now - startTime, past the 150 ms duration the indices
are written with 0, the blink ends and the next one is scheduled;
otherwise the triangular ramp value is written and the chain continues.
The performed write (indices, value) is returned alongside. Nothing in
this callback consults the lip-sync state. -/
def doBlinkFrame (startTime : ℚ) (idxs : List ℕ) (now rNext : ℚ)
    (s : State) : State × Option (List ℕ × ℚ) :=
  let e := now - startTime
  let v := if e < 75 then e / 75 else 1 - (e - 75) / 75
  if 150 ≤ e then
    ({ s with isBlinking := false, blink := none,
              nextBlinkTime := setNextBlink now rNext },
     some (idxs, 0))
  else (s, some (idxs, v))

/-- One render frame of the blink subsystem: the animate loop calls
update, and an armed doBlink chain (scheduled strictly earlier) fires
its requestAnimationFrame callback. Returns the blink-morph write of
the frame, if any. -/
def frameStep (meshes : List Mesh) (names : List String) (talking : Bool)
    (time rNext : ℚ) (s : State) : State × Option (List ℕ × ℚ) :=
  let s1 := update meshes names talking time s
  match s1.blink with
  | some (t0, idxs) =>
      if t0 < time then doBlinkFrame t0 idxs time rNext s1 else (s1, none)
  | none => (s1, none)

end TalkingHead.IdleBlinker

namespace TalkingHead.Camera

/-- A three.js Vector3 restricted to rational coordinates. -/
structure Vec3 where
  x : ℚ
  y : ℚ
  z : ℚ
deriving DecidableEq

/-- Componentwise addition, Vector3.add. -/
def addV (a b : Vec3) : Vec3 := ⟨a.x + b.x, a.y + b.y, a.z + b.z⟩

/-- Vector3.lerp(v, alpha): this += (v - this) * alpha componentwise. -/
def lerpV (a b : Vec3) (t : ℚ) : Vec3 :=
  ⟨a.x + (b.x - a.x) * t, a.y + (b.y - a.y) * t, a.z + (b.z - a.z) * t⟩

/-- Squared Euclidean distance. The source compares
distanceTo(w) < eps; both sides being nonnegative this is equivalent to
distSq v w < eps * eps, which keeps the embedding inside the
rationals. -/
def distSq (a b : Vec3) : ℚ :=
  (a.x - b.x) * (a.x - b.x) + (a.y - b.y) * (a.y - b.y) +
    (a.z - b.z) * (a.z - b.z)

/-- CameraManager.dampingFactor = 0.05 (main.tsx line 993). -/
def damping : ℚ := 1/20

/-- The squared form of the 0.01 threshold of line 1071. -/
def epsSq : ℚ := 1/10000

/-- CameraManager.followOffset = (0, 2, 4.0) (main.tsx line 991). -/
def followOffset : Vec3 := ⟨0, 2, 4⟩

/-- CameraManager.lookAtOffset = (0, 0.5, 0) (main.tsx line 992). -/
def lookAtOffset : Vec3 := ⟨0, 1/2, 0⟩

/-- The camera manager mode (main.tsx line 984). -/
inductive CamMode
  | orbit
  | follow
  | transitionToOrbit
deriving DecidableEq

/-- The CameraManager state (main.tsx lines 977-998): mode, the
controls.enabled flag, camera.position, controls.target, the pose saved
on entering follow, the world position of the follow target bone (none
models an unset bone), and whether a target group is set. -/
structure CamState where
  mode : CamMode
  enabled : Bool
  pos : Vec3
  tgt : Vec3
  savedPos : Vec3
  savedTgt : Vec3
  bone : Option Vec3
  hasGroup : Bool
deriving DecidableEq

/-- Embedding of setMode(newMode) (main.tsx lines 1008-1033); the
source signature only admits ORBIT and FOLLOW, encoded by the boolean
followMode. Entering FOLLOW requires a target bone and saves the
current pose; leaving toward ORBIT enters TRANSITION_TO_ORBIT with the
controls kept disabled. -/
def camSetMode (s : CamState) (followMode : Bool) : CamState :=
  let nm := if followMode then CamMode.follow else CamMode.orbit
  if s.mode = nm then s
  else if followMode then
    match s.bone with
    | none => s
    | some _ =>
        { s with savedPos := s.pos, savedTgt := s.tgt,
                 mode := CamMode.follow, enabled := false }
  else
    { s with mode := CamMode.transitionToOrbit, enabled := false }

/-- Embedding of updateFollowCamera (main.tsx lines 1047-1059): damped
approach of camera and look-at target toward the bone position plus the
configured offsets. The camera.lookAt call only changes orientation,
which is not part of this state. -/
def updateFollowCamera (s : CamState) : CamState :=
  match s.bone with
  | none => s
  | some bp =>
    if s.hasGroup = false then s
    else
      { s with pos := lerpV s.pos (addV bp followOffset) damping,
               tgt := lerpV s.tgt (addV bp lookAtOffset) damping }

/-- Embedding of updateTransitionToOrbit (main.tsx lines 1062-1080):
lerp toward the saved pose; once both distances drop under the 0.01
threshold, snap to the saved pose, switch to ORBIT and re-enable the
controls. -/
def updateTransitionToOrbit (s : CamState) : CamState :=
  let pos1 := lerpV s.pos s.savedPos damping
  let tgt1 := lerpV s.tgt s.savedTgt damping
  if distSq pos1 s.savedPos < epsSq ∧ distSq tgt1 s.savedTgt < epsSq then
    { s with pos := s.savedPos, tgt := s.savedTgt,
             mode := CamMode.orbit, enabled := true }
  else
    { s with pos := pos1, tgt := tgt1 }

/-- Embedding of update() (main.tsx lines 1035-1045). The ORBIT branch
calls controls.update(), which does not modify any field of this
state. -/
def camUpdate (s : CamState) : CamState :=
  if s.mode = CamMode.follow ∧ s.bone.isSome then updateFollowCamera s
  else if s.mode = CamMode.transitionToOrbit then updateTransitionToOrbit s
  else s

/-- The operations a client can invoke on the camera manager. -/
inductive CamCmd
  | setModeOrbit
  | setModeFollow
  | update
deriving DecidableEq

/-- One step of the camera manager under a command. -/
def camStep (s : CamState) : CamCmd → CamState
  | CamCmd.setModeOrbit => camSetMode s false
  | CamCmd.setModeFollow => camSetMode s true
  | CamCmd.update => camUpdate s

end TalkingHead.Camera

namespace TalkingHead.Draft1

/-- A finished-event listener installed by the first-draft
playGeneratedSequence (main.tsx lines 2005-2036): the closure captures
its own sequenceActions (action identities, here numbers) and its own
currentActionIndex. -/
structure GenListener where
  actions : List ℕ
  idx : ℕ
deriving DecidableEq

/-- The finished listeners currently attached to the mixer by generated
sequences, in attachment order. (The BvhIdlePlayer listener, line 829,
is inert for generated actions and not tracked.) -/
structure MixerListeners where
  genListeners : List GenListener
deriving DecidableEq

/-- Listener bookkeeping of one successful first-draft
playGeneratedSequence invocation (main.tsx lines 1894-2043): the body
calls mixer.stopAllAction() (which silences, but does not detach,
earlier listeners), plays the first action, and runs
mixer.addEventListener at line 2041. No removeEventListener is executed
on entry: a previously attached listener stays attached. -/
def playGeneratedStart (m : MixerListeners) (actions : List ℕ) :
    MixerListeners :=
  ⟨m.genListeners ++ [⟨actions, 0⟩]⟩

/-- Delivery of one mixer finished event for action a to every attached
listener (main.tsx lines 2005-2036). A listener ignores actions outside
its own sequenceActions (line 2007) and actions other than its current
one (line 2008); after advancing past its last action it removes itself
(line 2018). -/
def dispatchFinished (m : MixerListeners) (a : ℕ) : MixerListeners :=
  ⟨m.genListeners.filterMap (fun l =>
    if a ∈ l.actions ∧ l.actions.get? l.idx = some a then
      if l.idx + 1 < l.actions.length then some ⟨l.actions, l.idx + 1⟩
      else none
    else some l)⟩

end TalkingHead.Draft1

namespace TalkingHead.Draft2

/-- Observable playback events of the second-draft generated-sequence
player (main.tsx lines 2662-2809). Generated clips are named by their
index in the sequence; the delayed events carry the setTimeout delay in
milliseconds. -/
inductive GenEv
  | playClip (i : ℕ)
  | crossFadeClips (i j : ℕ) (dur : ℚ)
  | crossFadeToStanding (dur : ℚ)
  | playStanding
  | delayedPlayIdle (delay : ℚ)
  | delayedCrossFadeStandingToIdle (delay dur : ℚ)
  | playStandingLoop
deriving DecidableEq

/-- Promise.all over the per-file BVH loads: any rejected load rejects
the whole batch. A successful load is recorded by the track count of
the retargeted clip. -/
def promiseAll : List (Option ℕ) → Option (List ℕ)
  | [] => some []
  | none :: _ => none
  | some v :: rest => (promiseAll rest).map (v :: ·)

/-- Observable effect of returnToStanding (main.tsx lines 2662-2689):
with standing clip data present it plays the looping standing action;
its guard otherwise returns without playing anything. -/
def returnToStandingEvents (standingOk : Bool) : List GenEv :=
  if standingOk then [GenEv.playStandingLoop] else []

/-- Outcome of the setup phase of the second-draft
playGeneratedSequence. -/
inductive StartOutcome
  | abortedToStanding
  | started (n : ℕ)
deriving DecidableEq

/-- Embedding of the second-draft playGeneratedSequence setup phase
(main.tsx lines 2691-2758 and 2803): guardsOk bundles the
mixer/currentModel/skinned-mesh guards of lines 2692-2701; a failed
batch load (line 2739) or an empty action list or any retargeted clip
with zero tracks (line 2754) aborts via returnToStanding before any
generated action is played; otherwise sequenceActions[0].play() runs
(line 2803). -/
def playGeneratedSequenceStart (guardsOk standingOk : Bool)
    (loads : List (Option ℕ)) : StartOutcome × List GenEv :=
  if guardsOk = false then
    (StartOutcome.abortedToStanding, returnToStandingEvents standingOk)
  else
    match promiseAll loads with
    | none =>
        (StartOutcome.abortedToStanding, returnToStandingEvents standingOk)
    | some trackCounts =>
        if trackCounts = [] ∨ 0 ∈ trackCounts then
          (StartOutcome.abortedToStanding, returnToStandingEvents standingOk)
        else
          (StartOutcome.started trackCounts.length, [GenEv.playClip 0])

/-- State of the second-draft finished handler (main.tsx lines
2760-2801): totalActions, currentActionIndex, and whether the listener
is still attached to the mixer. -/
structure GenSeqState where
  n : ℕ
  idx : ℕ
  attached : Bool
deriving DecidableEq

/-- Embedding of the second-draft onActionFinished (main.tsx lines
2765-2801) handling a finished event of action a. The guard at line
2766 only reacts when a is the current action (for idx past the end,
sequenceActions[idx] is undefined and never equal). Before the last
action, cross-fade 0.3 s into the next and play it; on the last one,
detach the listener, cross-fade 0.8 s into the looping standing action,
and schedule the 2500 ms delayed cross-fade (0.5 s) from standing into
idle, guarded by the standing and idle clip data flags. -/
def onActionFinished (standingOk idleOk : Bool) (s : GenSeqState) (a : ℕ) :
    GenSeqState × List GenEv :=
  if s.attached = false then (s, [])
  else if a = s.idx ∧ s.idx < s.n then
    let idx1 := s.idx + 1
    if idx1 < s.n then
      ({ s with idx := idx1 },
       [GenEv.crossFadeClips (idx1 - 1) idx1 (3/10), GenEv.playClip idx1])
    else
      ({ s with idx := idx1, attached := false },
       if standingOk then
         [GenEv.crossFadeToStanding (4/5), GenEv.playStanding] ++
           (if idleOk then
             [GenEv.delayedPlayIdle 2500,
              GenEv.delayedCrossFadeStandingToIdle 2500 (1/2)]
            else [])
       else [])
  else (s, [])

/-- Deliver a list of finished events in order, collecting the emitted
playback events. -/
def runFinishes (standingOk idleOk : Bool) :
    GenSeqState → List ℕ → List GenEv
  | _, [] => []
  | s, a :: as =>
    let r := onActionFinished standingOk idleOk s a
    r.2 ++ runFinishes standingOk idleOk r.1 as

/-- A full run of a generated sequence of n clips that all load and
retarget successfully: clip 0 is played (line 2803), then each action
finishes once, in order, as its LoopOnce playback completes. -/
def runGeneratedSequence (n : ℕ) (standingOk idleOk : Bool) : List GenEv :=
  GenEv.playClip 0 :: runFinishes standingOk idleOk ⟨n, 0, true⟩ (List.range n)

/-- Predicate picking the generated-clip play events. -/
def isPlayClip : GenEv → Bool
  | GenEv.playClip _ => true
  | _ => false

/-- Predicate picking the cross-fade into standing. -/
def isFadeToStanding : GenEv → Bool
  | GenEv.crossFadeToStanding _ => true
  | _ => false

/-- Predicate picking the delayed cross-fade from standing into idle. -/
def isDelayedIdleFade : GenEv → Bool
  | GenEv.delayedCrossFadeStandingToIdle _ _ => true
  | _ => false

end TalkingHead.Draft2

namespace TalkingHead

/-- The emotion preset table of the character literals (main.tsx lines
59-82); weights written as rationals. -/
def harryEmotions : EmotionMap :=
  [("neutral", []),
   ("happy",
     [("mouthSmile", 1), ("cheekSquintLeft", 7/10),
      ("cheekSquintRight", 7/10)]),
   ("angry",
     [("browDownLeft", 1), ("browDownRight", 1), ("mouthFrownLeft", 4/5),
      ("mouthFrownRight", 4/5)]),
   ("sad",
     [("browInnerUp", 1), ("mouthPucker", 1/2), ("mouthFrownLeft", 1/2),
      ("mouthFrownRight", 1/2)]),
   ("surprised",
     [("eyeWideLeft", 1), ("eyeWideRight", 1), ("jawOpen", 3/5),
      ("browInnerUp", 1)]),
   ("wink", [("eyeBlinkRight", 1), ("browInnerUp", 1/2)])]

/-- The happy preset of the table above. -/
def harryHappy : List (String × ℚ) :=
  [("mouthSmile", 1), ("cheekSquintLeft", 7/10), ("cheekSquintRight", 7/10)]

/-- The sad preset of the table above. -/
def harrySad : List (String × ℚ) :=
  [("browInnerUp", 1), ("mouthPucker", 1/2), ("mouthFrownLeft", 1/2),
   ("mouthFrownRight", 1/2)]

/-- The vowel to morph-name map of the character literals (main.tsx
lines 51-58). -/
def harryLipsync : List (String × List String) :=
  [("A", ["jawOpen", "mouthOpen"]),
   ("I", ["mouthStretchLeft", "mouthStretchRight"]),
   ("U", ["mouthFunnel"]),
   ("E", ["mouthShrugUpper"]),
   ("O", ["mouthPucker"])]

/-- A concrete morph-target dictionary covering the emotion, lip-sync
and blink morph names of the character literals, with distinct
indices. -/
def exDict : List (String × Nat) :=
  [("mouthSmile", 0), ("cheekSquintLeft", 1), ("cheekSquintRight", 2),
   ("browDownLeft", 3), ("browDownRight", 4), ("mouthFrownLeft", 5),
   ("mouthFrownRight", 6), ("browInnerUp", 7), ("mouthPucker", 8),
   ("eyeWideLeft", 9), ("eyeWideRight", 10), ("jawOpen", 11),
   ("eyeBlinkRight", 12), ("eyeBlinkLeft", 13), ("mouthOpen", 14),
   ("mouthStretchLeft", 15), ("mouthStretchRight", 16),
   ("mouthFunnel", 17), ("mouthShrugUpper", 18)]

/-- A concrete mesh with the dictionary above and every influence at
one. -/
def exMesh : Mesh := ⟨some exDict, some (List.replicate 19 1)⟩

/-- A concrete facial state built from exMesh. -/
def exState : EmotionState := ⟨[exMesh], "neutral"⟩

/-- A small emotion map with integer weights, used to instantiate the
general theorems on concrete data. -/
def wEm : EmotionMap :=
  [("happy", [("mouthSmile", 1), ("cheekSquintLeft", 1)]),
   ("sad", [("browInnerUp", 1)])]

/-- The happy preset of wEm. -/
def wHappy : List (String × ℚ) := [("mouthSmile", 1), ("cheekSquintLeft", 1)]

/-- The sad preset of wEm. -/
def wSad : List (String × ℚ) := [("browInnerUp", 1)]

/-- A dictionary resolving the three wEm morph names. -/
def wDict : List (String × Nat) :=
  [("mouthSmile", 0), ("cheekSquintLeft", 1), ("browInnerUp", 2)]

/-- A facial state with the wDict mesh and all influences at one. -/
def wState : EmotionState := ⟨[⟨some wDict, some [1, 1, 1]⟩], "neutral"⟩

/-- The mesh wState becomes after applying happy and then sad. -/
def wMeshFinal : Mesh := ⟨some wDict, some [0, 0, 1]⟩

/-- A concrete mesh list for the blink fixtures: a single mesh whose
dictionary resolves both blink morph names. -/
def blinkMeshes : List Mesh :=
  [⟨some [("eyeBlinkLeft", 0), ("eyeBlinkRight", 1)], some [0, 0]⟩]

/-- The configured blink morph names (main.tsx line 50). -/
def blinkNames : List String := ["eyeBlinkLeft", "eyeBlinkRight"]

/-- A blinker state ready to blink at time 0. -/
def b0 : IdleBlinker.State := ⟨0, false, none⟩

/-- A concrete lip-sync state with a previously applied vowel. -/
def lipState0 : LipSync.State := ⟨[exMesh], harryLipsync, some "A", false⟩

/-- A concrete lip-sync state whose meshes all lack a morph-target
dictionary, with a tick still running. -/
def lipNoDict : LipSync.State :=
  ⟨[⟨none, some [1/2]⟩, ⟨none, none⟩], harryLipsync, some "A", true⟩

/-- A camera state in FOLLOW mode with a target bone. -/
def cs1 : Camera.CamState :=
  ⟨Camera.CamMode.follow, false, ⟨1, 2, 3⟩, ⟨0, 0, 1⟩, ⟨5, 5, 5⟩,
   ⟨0, 1, 0⟩, some ⟨0, 0, 0⟩, true⟩

/-- A camera state mid transition, already at the saved pose. -/
def cs2 : Camera.CamState :=
  ⟨Camera.CamMode.transitionToOrbit, false, ⟨5, 5, 5⟩, ⟨0, 1, 0⟩,
   ⟨5, 5, 5⟩, ⟨0, 1, 0⟩, none, true⟩

/-- A camera state in ORBIT mode with a target bone, about to follow. -/
def cs3 : Camera.CamState :=
  ⟨Camera.CamMode.orbit, true, ⟨1, 1, 1⟩, ⟨0, 0, 0⟩, ⟨9, 9, 9⟩,
   ⟨8, 8, 8⟩, some ⟨0, 1, 0⟩, true⟩

end TalkingHead

namespace TalkingHead

theorem lookupName_mem {α : Type _} {n : String} {v : α} :
    ∀ {l : List (String × α)}, lookupName n l = some v → (n, v) ∈ l := by
  intro l
  induction l with
  | nil => intro h; simp [lookupName] at h
  | cons p ps ih =>
    intro h
    rcases p with ⟨a, b⟩
    simp only [lookupName] at h
    by_cases hp : a = n
    · rw [if_pos hp] at h
      cases h
      subst hp
      exact List.mem_cons_self _ _
    · rw [if_neg hp] at h
      exact List.mem_cons_of_mem _ (ih h)

theorem lookupName_inj {d : List (String × Nat)}
    (hnd : (d.map Prod.snd).Nodup) {a b : String} {i : Nat}
    (ha : lookupName a d = some i) (hb : lookupName b d = some i) :
    a = b := by
  induction d with
  | nil => simp [lookupName] at ha
  | cons p ps ih =>
    rcases p with ⟨nm, j⟩
    simp only [List.map_cons, List.nodup_cons] at hnd
    simp only [lookupName] at ha hb
    by_cases h1 : nm = a
    · rw [if_pos h1] at ha
      cases ha
      by_cases h2 : nm = b
      · rw [← h1, h2]
      · rw [if_neg h2] at hb
        exact absurd (List.mem_map_of_mem Prod.snd (lookupName_mem hb)) hnd.1
    · rw [if_neg h1] at ha
      by_cases h2 : nm = b
      · rw [if_pos h2] at hb
        cases hb
        exact absurd (List.mem_map_of_mem Prod.snd (lookupName_mem ha)) hnd.1
      · rw [if_neg h2] at hb
        exact ih hnd.2 ha hb

theorem map_eq_self_of_eq {α : Type _} {l : List α} {f : α → α}
    (h : ∀ a ∈ l, f a = a) : l.map f = l := by
  induction l with
  | nil => rfl
  | cons a l ih =>
    simp only [List.map_cons]
    rw [h a (List.mem_cons_self _ _), ih (fun b hb => h b (List.mem_cons_of_mem _ hb))]

/-- C9: after setNextBlink runs, the scheduled delay (nextBlinkTime
minus the current time) is at least 2000 ms and at most 8000 ms. -/
theorem setNextBlink_delay_in_bounds (now r : ℚ) (h0 : 0 ≤ r) (h1 : r < 1) :
    2000 ≤ IdleBlinker.setNextBlink now r - now ∧
      IdleBlinker.setNextBlink now r - now ≤ 8000 := by
  unfold IdleBlinker.setNextBlink
  constructor <;> nlinarith

theorem setNextBlink_delay_in_bounds_witness :
    2000 ≤ IdleBlinker.setNextBlink 100 0 - 100 ∧
      IdleBlinker.setNextBlink 100 0 - 100 ≤ 8000 :=
  setNextBlink_delay_in_bounds 100 0 (by decide) (by decide)

/-- C7 counterexample: a blink in flight when lip-sync starts keeps
writing blink-morph weights. A blink starts at time 1000 while not
talking; at time 1050, with isTalking() now true, the blink frame still
writes weight 2/3 to the blink morph indices, so the blink controller
does write blink-morph weights while isTalking() is true. -/
theorem blink_write_during_talking_cx :
    (IdleBlinker.frameStep blinkMeshes blinkNames true 1050 0
        (IdleBlinker.frameStep blinkMeshes blinkNames false 1000 0
          b0).1).2
      = some ([0, 1], 2/3) := by
  have h1 : (IdleBlinker.frameStep blinkMeshes blinkNames false 1000 0
      b0).1 = ⟨0, true, some (1000, [0, 1])⟩ := rfl
  rw [h1]
  norm_num [IdleBlinker.frameStep, IdleBlinker.update,
    IdleBlinker.doBlinkFrame]

/-- C7 amended: while isTalking() is true the blink controller never
starts a new blink (its update is a no-op), and with no blink already
in flight the frame performs no blink-morph write at all; only a blink
started before lip-sync began keeps writing until its 150 ms duration
elapses. -/
theorem blink_update_noop_while_talking (meshes : List Mesh)
    (names : List String) (time rNext : ℚ) (s : IdleBlinker.State) :
    IdleBlinker.update meshes names true time s = s ∧
    (s.blink = none →
      IdleBlinker.frameStep meshes names true time rNext s = (s, none)) := by
  have hu : IdleBlinker.update meshes names true time s = s := by
    unfold IdleBlinker.update
    rw [if_pos (Or.inr (Or.inr (Or.inl (by simp))))]
  refine ⟨hu, fun h => ?_⟩
  simp only [IdleBlinker.frameStep, hu, h]

theorem blink_update_noop_while_talking_witness :
    IdleBlinker.update blinkMeshes blinkNames true 1000 b0 = b0 ∧
    IdleBlinker.frameStep blinkMeshes blinkNames true 1000 (1/2) b0
      = (b0, none) := by
  have T := blink_update_noop_while_talking blinkMeshes blinkNames 1000
    (1/2) b0
  exact ⟨T.1, T.2 rfl⟩

/-- C6 counterexample: "bogus" is not a key of the emotion map, yet
applyEmotion changes morph weights (the reset pass still runs) and
changes the current emotion to "bogus"; it is therefore not a no-op. -/
theorem applyEmotion_unknown_name_cx :
    lookupName "bogus" harryEmotions = none ∧
    (applyEmotion harryEmotions "bogus" exState).meshes ≠ exState.meshes ∧
    (applyEmotion harryEmotions "bogus" exState).currentEmotion
      ≠ exState.currentEmotion := by decide

/-- C6 amended: for a name that is not a key of the emotion map,
applyEmotion raises no error and applies no preset, but it is not a
no-op: it resets every known emotion morph channel to 0 and records the
unknown name as the current emotion. -/
theorem applyEmotion_unknown_resets_and_records (em : EmotionMap)
    (name : String) (st : EmotionState) (hu : lookupName name em = none)
    (hne : st.meshes ≠ []) :
    applyEmotion em name st =
      ⟨st.meshes.map (resetMesh (allEmotionMorphs em)), name⟩ := by
  unfold applyEmotion
  rw [if_neg hne, hu]

theorem applyEmotion_unknown_resets_and_records_witness :
    applyEmotion harryEmotions "bogus" exState =
      ⟨exState.meshes.map (resetMesh (allEmotionMorphs harryEmotions)),
       "bogus"⟩ :=
  applyEmotion_unknown_resets_and_records harryEmotions "bogus" exState
    (by decide) (by decide)

/-- C1 counterexample: invoking the first-draft playGeneratedSequence
again while the prior sequence is still playing does not remove the
prior finished listener: after the second invocation both generated
listeners are attached to the mixer at once. -/
theorem generated_listener_not_removed_cx :
    (Draft1.playGeneratedStart
        (Draft1.playGeneratedStart ⟨[]⟩ [10, 11]) [20, 21]).genListeners
      = [⟨[10, 11], 0⟩, ⟨[20, 21], 0⟩] := by decide

/-- C1 amended: re-entering playGeneratedSequence leaves the stale
finished listener attached alongside the new one, but each listener
ignores actions outside its own sequence, so a finish event of the new
sequence advances only the new listener and only once (and leaves the
stale listener untouched). -/
theorem reentry_stale_listener_inert (old new : List ℕ) (a : ℕ)
    (ha : a ∉ old) (h0 : new.get? 0 = some a) (hlen : 1 < new.length) :
    Draft1.dispatchFinished
        (Draft1.playGeneratedStart
          (Draft1.playGeneratedStart ⟨[]⟩ old) new) a
      = ⟨[⟨old, 0⟩, ⟨new, 1⟩]⟩ := by
  have hmem : a ∈ new := List.get?_mem h0
  simp only [Draft1.playGeneratedStart, Draft1.dispatchFinished,
    List.nil_append, List.cons_append, List.filterMap]
  rw [if_neg (fun hc => ha hc.1), if_pos ⟨hmem, h0⟩,
    if_pos (by simpa using hlen)]

theorem reentry_stale_listener_inert_witness :
    Draft1.dispatchFinished
        (Draft1.playGeneratedStart
          (Draft1.playGeneratedStart ⟨[]⟩ [10, 11]) [20, 21]) 20
      = ⟨[⟨[10, 11], 0⟩, ⟨[20, 21], 1⟩]⟩ :=
  reentry_stale_listener_inert [10, 11] [20, 21] 20 (by decide) (by decide)
    (by decide)

theorem promiseAll_none_of_mem {xs : List (Option ℕ)} (h : none ∈ xs) :
    Draft2.promiseAll xs = none := by
  induction xs with
  | nil => cases h
  | cons x rest ih =>
    cases x with
    | none => rfl
    | some v =>
      rcases List.mem_cons.mp h with h1 | h2
      · cases h1
      · simp [Draft2.promiseAll, ih h2]

theorem mem_of_promiseAll {xs : List (Option ℕ)} {ts : List ℕ} {v : ℕ}
    (hpa : Draft2.promiseAll xs = some ts) (hv : some v ∈ xs) : v ∈ ts := by
  induction xs generalizing ts with
  | nil => cases hv
  | cons x rest ih =>
    cases x with
    | none => simp [Draft2.promiseAll] at hpa
    | some w =>
      simp only [Draft2.promiseAll, Option.map_eq_some'] at hpa
      obtain ⟨ts0, hts0, rfl⟩ := hpa
      rcases List.mem_cons.mp hv with h1 | h2
      · cases h1
        exact List.mem_cons_self _ _
      · exact List.mem_cons_of_mem _ (ih hts0 h2)

/-- C2: in the second-draft playGeneratedSequence, if any clip of the
batch fails to load or retargets to a clip with zero tracks, the setup
aborts to returnToStanding and play() is never called on any generated
clip of the sequence (in particular on none after the failing one). -/
theorem generated_sequence_aborts_before_any_play (standingOk : Bool)
    (loads : List (Option ℕ))
    (h : ∃ x ∈ loads, x = none ∨ x = some 0) :
    (Draft2.playGeneratedSequenceStart true standingOk loads).1 =
      Draft2.StartOutcome.abortedToStanding ∧
    ∀ i, Draft2.GenEv.playClip i ∉
      (Draft2.playGeneratedSequenceStart true standingOk loads).2 := by
  obtain ⟨x, hx, hcase⟩ := h
  have hrts : ∀ i, Draft2.GenEv.playClip i ∉
      Draft2.returnToStandingEvents standingOk := by
    intro i
    cases standingOk <;> simp [Draft2.returnToStandingEvents]
  have heq : Draft2.playGeneratedSequenceStart true standingOk loads =
      (Draft2.StartOutcome.abortedToStanding,
       Draft2.returnToStandingEvents standingOk) := by
    unfold Draft2.playGeneratedSequenceStart
    rw [if_neg (by decide)]
    rcases hcase with rfl | rfl
    · rw [promiseAll_none_of_mem hx]
    · cases hpa : Draft2.promiseAll loads with
      | none => rfl
      | some ts =>
        show (if ts = [] ∨ 0 ∈ ts then _ else _) = _
        rw [if_pos (Or.inr (mem_of_promiseAll hpa hx))]
  rw [heq]
  exact ⟨rfl, hrts⟩

theorem generated_sequence_aborts_before_any_play_witness :
    (Draft2.playGeneratedSequenceStart true true
        [some 3, none, some 2]).1 =
      Draft2.StartOutcome.abortedToStanding ∧
    Draft2.GenEv.playClip 2 ∉
      (Draft2.playGeneratedSequenceStart true true
        [some 3, none, some 2]).2 := by
  have T := generated_sequence_aborts_before_any_play true
    [some 3, none, some 2] (by decide)
  exact ⟨T.1, T.2 2⟩

end TalkingHead

namespace TalkingHead

theorem setMorphs_of_no_dict {meshes : List Mesh}
    (h : ∀ m ∈ meshes, m.dict = none) (ns : List String) (v : ℚ) :
    LipSync.setMorphs meshes ns v = meshes := by
  cases meshes with
  | nil => rfl
  | cons m0 rest =>
    have h0 := h m0 (List.mem_cons_self _ _)
    simp [LipSync.setMorphs, h0]

theorem resetMesh_of_no_dict {m : Mesh} (h : m.dict = none)
    (names : List String) : resetMesh names m = m := by
  rcases m with ⟨d, i⟩
  cases h
  rfl

theorem applyPresetMesh_of_no_dict {m : Mesh} (h : m.dict = none)
    (pairs : List (String × ℚ)) : applyPresetMesh pairs m = m := by
  rcases m with ⟨d, i⟩
  cases h
  rfl

/-- C10: when no mesh of the lip-sync driver has a morph-target
dictionary, start() installs no tick interval, changes no morph weight,
and isTalking() is false afterwards; moreover the delayed
applyEmotion(currentEmotion) that a preceding stop() schedules also
changes no morph weight on such meshes. -/
theorem lipsync_start_without_dict_installs_nothing (st : LipSync.State)
    (hnd : ∀ m ∈ st.meshes, m.dict = none) :
    (LipSync.start st).interval = false ∧
    (LipSync.start st).meshes = st.meshes ∧
    LipSync.isTalking (LipSync.start st) = false ∧
    ∀ (em : EmotionMap) (e c : String),
      (applyEmotion em e ⟨st.meshes, c⟩).meshes = st.meshes := by
  have hstop_m : (LipSync.stop st).meshes = st.meshes := by
    unfold LipSync.stop
    cases hlv : st.lastVowel with
    | none => rfl
    | some lv => simp [setMorphs_of_no_dict hnd]
  have hstop_i : (LipSync.stop st).interval = false := rfl
  have key : LipSync.start st = (if st.interval then LipSync.stop st else st) := by
    simp only [LipSync.start]
    set s1 := if st.interval then LipSync.stop st else st with hs1
    have h1m : s1.meshes = st.meshes := by
      cases hsi : st.interval <;> simp [hs1, hsi, hstop_m]
    by_cases hemp : s1.meshes.isEmpty
    · rw [if_pos hemp]
    · rw [if_neg hemp]
      have hfind : s1.meshes.find? (fun m => m.dict.isSome) = none := by
        rw [h1m, List.find?_eq_none]
        intro m hm
        simp [hnd m hm]
      rw [hfind]
  have hint : (LipSync.start st).interval = false := by
    rw [key]
    cases hsi : st.interval <;> simp [hsi, hstop_i]
  have hmeq : (LipSync.start st).meshes = st.meshes := by
    rw [key]
    cases hsi : st.interval <;> simp [hsi, hstop_m]
  refine ⟨hint, hmeq, hint, ?_⟩
  intro em e c
  unfold applyEmotion
  by_cases hemp : ([] : List Mesh) = st.meshes
  · rw [if_pos hemp.symm]
  · rw [if_neg (fun hc => hemp hc.symm)]
    have hreset :
        st.meshes.map (resetMesh (allEmotionMorphs em)) = st.meshes :=
      map_eq_self_of_eq (fun m hm => resetMesh_of_no_dict (hnd m hm) _)
    cases hlk : lookupName e em with
    | none => simp only [hlk, hreset]
    | some pairs =>
      have happly : st.meshes.map (applyPresetMesh pairs) = st.meshes :=
        map_eq_self_of_eq (fun m hm => applyPresetMesh_of_no_dict (hnd m hm) _)
      simp only [hlk, hreset, happly]

theorem lipsync_start_without_dict_witness :
    (LipSync.start lipNoDict).interval = false ∧
    (LipSync.start lipNoDict).meshes = lipNoDict.meshes := by
  have T := lipsync_start_without_dict_installs_nothing lipNoDict (by decide)
  exact ⟨T.1, T.2.1⟩

theorem pickDifferent_spec {shapes : List String} {last : Option String} :
    ∀ {cs : List ℕ} {v : String},
      LipSync.pickDifferent shapes last cs = some v →
      v ∈ shapes ∧ some v ≠ last := by
  intro cs
  induction cs with
  | nil => intro v h; simp [LipSync.pickDifferent] at h
  | cons c cs ih =>
    intro v h
    simp only [LipSync.pickDifferent] at h
    split at h
    next w heq =>
      by_cases hw : some w = last
      · rw [if_pos hw] at h
        exact ih h
      · rw [if_neg hw] at h
        cases h
        exact ⟨List.get?_mem heq, hw⟩
    next heq => exact ih h

/-- C8: on a lip-sync tick with a previously applied vowel, the writes
are exactly: first the previous vowel shape set to 0, then a vowel
shape different from the last one set to 0.4 + 0.2 * r, a value lying
within the band [0.4, 1.0] for every random draw r in [0, 1). -/
theorem lipsync_tick_zero_then_distinct_vowel_in_band
    (st : LipSync.State) (choices : List ℕ) (r : ℚ) (lv nv : String)
    (hm : st.meshes ≠ []) (hlv : st.lastVowel = some lv)
    (hp : LipSync.pickDifferent (LipSync.vowelShapes st) st.lastVowel
            choices = some nv)
    (h0 : 0 ≤ r) (h1 : r < 1) :
    (LipSync.tick st choices r).2 =
        [(LipSync.shapeNames st lv, 0),
         (LipSync.shapeNames st nv, 2/5 + 1/5 * r)] ∧
    nv ≠ lv ∧ nv ∈ LipSync.vowelShapes st ∧
    (2 : ℚ)/5 ≤ 2/5 + 1/5 * r ∧ (2 : ℚ)/5 + 1/5 * r ≤ 1 ∧
    (LipSync.tick st choices r).1.lastVowel = some nv := by
  have hspec := pickDifferent_spec hp
  have hnelv : nv ≠ lv := by
    intro hcontra
    exact hspec.2 (by rw [hlv, hcontra])
  have hne : ¬ st.meshes.isEmpty = true := by
    rw [List.isEmpty_iff]
    exact hm
  rw [hlv] at hp
  unfold LipSync.tick
  rw [if_neg hne, hlv, hp]
  exact ⟨rfl, hnelv, hspec.1, by nlinarith, by nlinarith, rfl⟩

theorem lipsync_tick_zero_then_distinct_vowel_witness :
    (LipSync.tick lipState0 [1] 0).2 =
        [(LipSync.shapeNames lipState0 "A", 0),
         (LipSync.shapeNames lipState0 "I", 2/5 + 1/5 * 0)] ∧
    "I" ≠ "A" ∧ "I" ∈ LipSync.vowelShapes lipState0 ∧
    (2 : ℚ)/5 ≤ 2/5 + 1/5 * 0 ∧ (2 : ℚ)/5 + 1/5 * 0 ≤ 1 ∧
    (LipSync.tick lipState0 [1] 0).1.lastVowel = some "I" :=
  lipsync_tick_zero_then_distinct_vowel_in_band lipState0 [1] 0 "A" "I"
    (by decide) (by decide) (by decide) (by decide) (by decide)

end TalkingHead

namespace TalkingHead

open Camera in
/-- C4: leaving FOLLOW always enters TRANSITION_TO_ORBIT with the
controls disabled; the controls are re-enabled (and the mode set back
to ORBIT) only by an update step in TRANSITION_TO_ORBIT whose damped
positions land within the epsilon threshold of the pose saved on
entering FOLLOW, never earlier; and entering FOLLOW saves the current
pose while disabling the controls. -/
theorem camera_transition_guards_reenable
    (s : CamState) (c : CamCmd) :
    ((s.mode = CamMode.follow ∧ (camStep s c).mode ≠ CamMode.follow) →
      ((camStep s c).mode = CamMode.transitionToOrbit ∧
       (camStep s c).enabled = false)) ∧
    ((s.enabled = false ∧ (camStep s c).enabled = true) →
      (c = CamCmd.update ∧
       s.mode = CamMode.transitionToOrbit ∧
       (camStep s c).mode = CamMode.orbit ∧
       distSq (lerpV s.pos s.savedPos damping) s.savedPos < epsSq ∧
       distSq (lerpV s.tgt s.savedTgt damping) s.savedTgt < epsSq)) ∧
    ((s.mode ≠ CamMode.follow ∧ s.bone.isSome = true) →
      ((camStep s CamCmd.setModeFollow).savedPos = s.pos ∧
       (camStep s CamCmd.setModeFollow).savedTgt = s.tgt ∧
       (camStep s CamCmd.setModeFollow).mode = CamMode.follow ∧
       (camStep s CamCmd.setModeFollow).enabled = false)) := by
  have part3 : (s.mode ≠ CamMode.follow ∧ s.bone.isSome = true) →
      ((camStep s CamCmd.setModeFollow).savedPos = s.pos ∧
       (camStep s CamCmd.setModeFollow).savedTgt = s.tgt ∧
       (camStep s CamCmd.setModeFollow).mode = CamMode.follow ∧
       (camStep s CamCmd.setModeFollow).enabled = false) := by
    rintro ⟨hmode, hbone⟩
    obtain ⟨bp, hbp⟩ := Option.isSome_iff_exists.mp hbone
    simp only [camStep, camSetMode, if_true]
    rw [if_neg (by simpa using hmode), hbp]
    exact ⟨rfl, rfl, rfl, rfl⟩
  rcases c with _ | _ | _
  · -- setModeOrbit
    by_cases h1 : s.mode = CamMode.orbit
    · have hstep : camStep s CamCmd.setModeOrbit = s := by
        simp [camStep, camSetMode, h1]
      refine ⟨?_, ?_, part3⟩
      · rintro ⟨hfol, hne⟩
        rw [h1] at hfol
        cases hfol
      · rintro ⟨he, he2⟩
        rw [hstep, he] at he2
        cases he2
    · have hstep : camStep s CamCmd.setModeOrbit =
          { s with mode := CamMode.transitionToOrbit, enabled := false } := by
        simp [camStep, camSetMode, h1]
      refine ⟨?_, ?_, part3⟩
      · rintro ⟨hfol, hne⟩
        rw [hstep]
        exact ⟨rfl, rfl⟩
      · rintro ⟨he, he2⟩
        rw [hstep] at he2
        cases he2
  · -- setModeFollow
    by_cases h1 : s.mode = CamMode.follow
    · have hstep : camStep s CamCmd.setModeFollow = s := by
        simp [camStep, camSetMode, h1]
      refine ⟨?_, ?_, part3⟩
      · rintro ⟨hfol, hne⟩
        rw [hstep] at hne
        exact absurd hfol hne
      · rintro ⟨he, he2⟩
        rw [hstep, he] at he2
        cases he2
    · by_cases hbn : s.bone = none
      · have hstep : camStep s CamCmd.setModeFollow = s := by
          simp [camStep, camSetMode, h1, hbn]
        refine ⟨?_, ?_, part3⟩
        · rintro ⟨hfol, hne⟩
          exact absurd hfol h1
        · rintro ⟨he, he2⟩
          rw [hstep, he] at he2
          cases he2
      · obtain ⟨bp, hbp⟩ := Option.ne_none_iff_exists'.mp hbn
        have hstep : camStep s CamCmd.setModeFollow =
            { s with savedPos := s.pos, savedTgt := s.tgt,
                     mode := CamMode.follow, enabled := false } := by
          simp [camStep, camSetMode, h1, hbp]
        refine ⟨?_, ?_, part3⟩
        · rintro ⟨hfol, hne⟩
          exact absurd hfol h1
        · rintro ⟨he, he2⟩
          rw [hstep] at he2
          cases he2
  · -- update
    by_cases h1 : s.mode = CamMode.follow ∧ s.bone.isSome = true
    · have hstep : camStep s CamCmd.update = updateFollowCamera s := by
        simp only [camStep, camUpdate]
        rw [if_pos (by simpa using h1)]
      have hsame : (updateFollowCamera s).mode = s.mode ∧
          (updateFollowCamera s).enabled = s.enabled := by
        unfold updateFollowCamera
        rcases hsb : s.bone with _ | bp
        · exact ⟨rfl, rfl⟩
        · by_cases hg : s.hasGroup = false <;> simp [hg]
      refine ⟨?_, ?_, part3⟩
      · rintro ⟨hfol, hne⟩
        rw [hstep, hsame.1] at hne
        exact absurd hfol hne
      · rintro ⟨he, he2⟩
        rw [hstep, hsame.2, he] at he2
        cases he2
    · by_cases h2 : s.mode = CamMode.transitionToOrbit
      · have hstep : camStep s CamCmd.update = updateTransitionToOrbit s := by
          simp only [camStep, camUpdate]
          rw [if_neg (by simpa using h1), if_pos h2]
        by_cases hth : distSq (lerpV s.pos s.savedPos damping) s.savedPos
              < epsSq ∧
            distSq (lerpV s.tgt s.savedTgt damping) s.savedTgt < epsSq
        · have hres : updateTransitionToOrbit s =
              { s with pos := s.savedPos, tgt := s.savedTgt,
                       mode := CamMode.orbit, enabled := true } := by
            simp only [updateTransitionToOrbit]
            rw [if_pos hth]
          refine ⟨?_, ?_, part3⟩
          · rintro ⟨hfol, hne⟩
            rw [hfol] at h2
            cases h2
          · rintro ⟨he, he2⟩
            rw [hstep, hres]
            exact ⟨rfl, h2, rfl, hth.1, hth.2⟩
        · have hres : updateTransitionToOrbit s =
              { s with pos := lerpV s.pos s.savedPos damping,
                       tgt := lerpV s.tgt s.savedTgt damping } := by
            simp only [updateTransitionToOrbit]
            rw [if_neg hth]
          refine ⟨?_, ?_, part3⟩
          · rintro ⟨hfol, hne⟩
            rw [hfol] at h2
            cases h2
          · rintro ⟨he, he2⟩
            rw [hstep, hres] at he2
            rw [he] at he2
            cases he2
      · have hstep : camStep s CamCmd.update = s := by
          simp only [camStep, camUpdate]
          rw [if_neg (by simpa using h1), if_neg h2]
        refine ⟨?_, ?_, part3⟩
        · rintro ⟨hfol, hne⟩
          rw [hstep] at hne
          exact absurd hfol hne
        · rintro ⟨he, he2⟩
          rw [hstep, he] at he2
          cases he2

open Camera in
theorem camera_transition_guards_reenable_witness :
    ((camStep cs1 CamCmd.setModeOrbit).mode = CamMode.transitionToOrbit ∧
     (camStep cs1 CamCmd.setModeOrbit).enabled = false) ∧
    (CamCmd.update = CamCmd.update ∧
     cs2.mode = CamMode.transitionToOrbit ∧
     (camStep cs2 CamCmd.update).mode = CamMode.orbit ∧
     distSq (lerpV cs2.pos cs2.savedPos damping) cs2.savedPos < epsSq ∧
     distSq (lerpV cs2.tgt cs2.savedTgt damping) cs2.savedTgt < epsSq) ∧
    ((camStep cs3 CamCmd.setModeFollow).savedPos = cs3.pos ∧
     (camStep cs3 CamCmd.setModeFollow).savedTgt = cs3.tgt ∧
     (camStep cs3 CamCmd.setModeFollow).mode = CamMode.follow ∧
     (camStep cs3 CamCmd.setModeFollow).enabled = false) := by
  refine ⟨?_, ?_, ?_⟩
  · exact (camera_transition_guards_reenable cs1 CamCmd.setModeOrbit).1
      ⟨rfl, by decide⟩
  · exact (camera_transition_guards_reenable cs2 CamCmd.update).2.1
      ⟨rfl, by norm_num [camStep, camUpdate, updateTransitionToOrbit,
        lerpV, distSq, damping, epsSq, cs2]⟩
  · exact (camera_transition_guards_reenable cs3 CamCmd.setModeFollow).2.2
      ⟨by decide, rfl⟩

end TalkingHead

namespace TalkingHead

theorem resetFold_getElem_zero_stays (d : List (String × Nat)) (i : ℕ) :
    ∀ (names : List String) (inf : List ℚ), inf[i]? = some 0 →
      (resetFold d names inf)[i]? = some 0 := by
  intro names
  induction names with
  | nil => intro inf h; exact h
  | cons y ys ih =>
    intro inf h
    have hstep : resetFold d (y :: ys) inf = resetFold d ys
        (match lookupName y d with
         | some j => inf.set j 0
         | none => inf) := rfl
    rw [hstep]
    apply ih
    cases hlk : lookupName y d with
    | none => simpa [hlk] using h
    | some j =>
      simp only [hlk]
      by_cases hji : j = i
      · subst hji
        rw [List.getElem?_set_self', h]
        rfl
      · rw [List.getElem?_set_ne hji]
        exact h

theorem resetFold_length (d : List (String × Nat)) :
    ∀ (names : List String) (inf : List ℚ),
      (resetFold d names inf).length = inf.length := by
  intro names
  induction names with
  | nil => intro inf; rfl
  | cons y ys ih =>
    intro inf
    have hstep : resetFold d (y :: ys) inf = resetFold d ys
        (match lookupName y d with
         | some j => inf.set j 0
         | none => inf) := rfl
    rw [hstep, ih]
    cases hlk : lookupName y d <;> simp [hlk]

theorem resetFold_writes_zero (d : List (String × Nat)) (x : String)
    (i : ℕ) (hlk : lookupName x d = some i) :
    ∀ (names : List String) (inf : List ℚ), x ∈ names →
      i < inf.length → (resetFold d names inf)[i]? = some 0 := by
  intro names
  induction names with
  | nil => intro inf hx; cases hx
  | cons y ys ih =>
    intro inf hx hlen
    have hstep : resetFold d (y :: ys) inf = resetFold d ys
        (match lookupName y d with
         | some j => inf.set j 0
         | none => inf) := rfl
    rw [hstep]
    rcases List.mem_cons.mp hx with rfl | hx2
    · simp only [hlk]
      apply resetFold_getElem_zero_stays
      rw [List.getElem?_set_self', List.getElem?_eq_getElem hlen]
      rfl
    · apply ih _ hx2
      cases hlk2 : lookupName y d with
      | none => simpa using hlen
      | some j => simpa [List.length_set] using hlen

theorem applyFold_length (d : List (String × Nat)) :
    ∀ (pairs : List (String × ℚ)) (inf : List ℚ),
      (applyFold d pairs inf).length = inf.length := by
  intro pairs
  induction pairs with
  | nil => intro inf; rfl
  | cons p ps ih =>
    intro inf
    have hstep : applyFold d (p :: ps) inf = applyFold d ps
        (match lookupName p.1 d with
         | some j => inf.set j p.2
         | none => inf) := rfl
    rw [hstep, ih]
    cases hlk : lookupName p.1 d <;> simp [hlk]

theorem applyFold_getElem_of_not_hit (d : List (String × Nat)) (i : ℕ) :
    ∀ (pairs : List (String × ℚ)) (inf : List ℚ),
      (∀ p ∈ pairs, lookupName p.1 d ≠ some i) →
      (applyFold d pairs inf)[i]? = inf[i]? := by
  intro pairs
  induction pairs with
  | nil => intro inf h; rfl
  | cons p ps ih =>
    intro inf h
    have hstep : applyFold d (p :: ps) inf = applyFold d ps
        (match lookupName p.1 d with
         | some j => inf.set j p.2
         | none => inf) := rfl
    rw [hstep, ih _ (fun q hq => h q (List.mem_cons_of_mem _ hq))]
    cases hlk : lookupName p.1 d with
    | none => rfl
    | some j =>
      have hji : j ≠ i := fun hc =>
        h p (List.mem_cons_self _ _) (by rw [hlk, hc])
      simp only [hlk]
      exact List.getElem?_set_ne hji

/-- C5: after applyEmotion of happy and then of sad, every morph
channel named in the happy preset but not in the sad preset holds
weight exactly 0 (for dictionaries resolving names to distinct
indices). -/
theorem applyEmotion_happy_then_sad_exclusive_zero
    (em : EmotionMap) (happyP sadP : List (String × ℚ))
    (st : EmotionState) (x : String) (i : ℕ)
    (hhm : ("happy", happyP) ∈ em)
    (hsl : lookupName "sad" em = some sadP)
    (hx : x ∈ happyP.map Prod.fst) (hxs : x ∉ sadP.map Prod.fst) :
    ∀ m ∈ (applyEmotion em "sad" (applyEmotion em "happy" st)).meshes,
      ∀ d inf, m.dict = some d → m.influences = some inf →
        (d.map Prod.snd).Nodup → lookupName x d = some i →
        i < inf.length → inf[i]? = some 0 := by
  intro m hm d inf hdict hinf hnd hlki hlen
  set st1 := applyEmotion em "happy" st with hst1
  by_cases hemp : st1.meshes = []
  · unfold applyEmotion at hm
    rw [if_pos hemp] at hm
    rw [hemp] at hm
    cases hm
  · simp only [applyEmotion, hsl] at hm
    rw [if_neg hemp] at hm
    obtain ⟨m1, hm1, rfl⟩ := List.mem_map.mp hm
    obtain ⟨m0, hm0, rfl⟩ := List.mem_map.mp hm1
    rcases m0 with ⟨od, oi⟩
    rcases od with _ | d0
    · simp [resetMesh, applyPresetMesh] at hdict
    · rcases oi with _ | inf0
      · simp [resetMesh, applyPresetMesh] at hinf
      · have hmeq :
            applyPresetMesh sadP
              (resetMesh (allEmotionMorphs em) ⟨some d0, some inf0⟩) =
            ⟨some d0,
             some (applyFold d0 sadP
               (resetFold d0 (allEmotionMorphs em) inf0))⟩ := rfl
        rw [hmeq] at hdict hinf
        injection hdict with hd
        injection hinf with hi
        subst hd
        subst hi
        rw [applyFold_length, resetFold_length] at hlen
        have hnotHit : ∀ p ∈ sadP, lookupName p.1 d0 ≠ some i := by
          intro p hp hc
          have hpx : p.1 = x := lookupName_inj hnd hc hlki
          exact hxs (hpx ▸ List.mem_map_of_mem Prod.fst hp)
        rw [applyFold_getElem_of_not_hit d0 i sadP _ hnotHit]
        have hxnames : x ∈ allEmotionMorphs em := by
          unfold allEmotionMorphs
          rw [List.mem_dedup]
          exact List.mem_flatMap.mpr
            ⟨happyP, List.mem_map_of_mem Prod.snd hhm, hx⟩
        exact resetFold_writes_zero d0 x i hlki _ inf0 hxnames hlen

theorem applyEmotion_happy_then_sad_exclusive_zero_witness :
    wMeshFinal.influences = some [0, 0, 1] ∧
    (([0, 0, 1] : List ℚ)[0]? = some 0) :=
  ⟨rfl,
   applyEmotion_happy_then_sad_exclusive_zero wEm wHappy wSad wState
     "mouthSmile" 0 (by decide) (by decide) (by decide) (by decide)
     wMeshFinal (by decide) wDict [0, 0, 1] (by decide) (by decide)
     (by decide) (by decide) (by decide)⟩

end TalkingHead

namespace TalkingHead

theorem runFinishes_chain (j : ℕ) :
    ∀ k : ℕ,
      Draft2.runFinishes true true ⟨k + j + 1, k, true⟩
          (List.range' k (j + 1)) =
        ((List.range' k j).flatMap fun i =>
          [Draft2.GenEv.crossFadeClips i (i + 1) (3/10),
           Draft2.GenEv.playClip (i + 1)]) ++
        [Draft2.GenEv.crossFadeToStanding (4/5),
         Draft2.GenEv.playStanding,
         Draft2.GenEv.delayedPlayIdle 2500,
         Draft2.GenEv.delayedCrossFadeStandingToIdle 2500 (1/2)] := by
  have hcons : ∀ (s : Draft2.GenSeqState) (a : ℕ) (as : List ℕ),
      Draft2.runFinishes true true s (a :: as) =
        (Draft2.onActionFinished true true s a).2 ++
          Draft2.runFinishes true true
            (Draft2.onActionFinished true true s a).1 as :=
    fun s a as => rfl
  induction j with
  | zero =>
    intro k
    have hact : Draft2.onActionFinished true true ⟨k + 0 + 1, k, true⟩ k =
        (⟨k + 0 + 1, k + 1, false⟩,
         [Draft2.GenEv.crossFadeToStanding (4/5),
          Draft2.GenEv.playStanding,
          Draft2.GenEv.delayedPlayIdle 2500,
          Draft2.GenEv.delayedCrossFadeStandingToIdle 2500 (1/2)]) := by
      dsimp only [Draft2.onActionFinished]
      rw [if_neg (show ¬(true = false) from by decide),
        if_pos (⟨rfl, by omega⟩ : k = k ∧ k < k + 0 + 1),
        if_neg (show ¬(k + 1 < k + 0 + 1) from by omega)]
      simp
    show Draft2.runFinishes true true ⟨k + 0 + 1, k, true⟩ (k :: []) = _
    rw [hcons, hact]
    rfl
  | succ j ihj =>
    intro k
    rw [List.range'_succ, hcons]
    have hact : Draft2.onActionFinished true true
          ⟨k + (j + 1) + 1, k, true⟩ k =
        (⟨k + (j + 1) + 1, k + 1, true⟩,
         [Draft2.GenEv.crossFadeClips k (k + 1) (3/10),
          Draft2.GenEv.playClip (k + 1)]) := by
      dsimp only [Draft2.onActionFinished]
      rw [if_neg (show ¬(true = false) from by decide),
        if_pos (⟨rfl, by omega⟩ : k = k ∧ k < k + (j + 1) + 1),
        if_pos (show k + 1 < k + (j + 1) + 1 from by omega)]
      simp
    rw [hact]
    have harith : k + (j + 1) + 1 = (k + 1) + j + 1 := by omega
    rw [harith, ihj (k + 1)]
    rw [show j + 1 = j + 1 from rfl, List.range'_succ]
    simp [List.flatMap_cons, List.append_assoc, Nat.add_sub_cancel]

theorem chain_countP_play (l : List ℕ) :
    ((l.flatMap fun i =>
        [Draft2.GenEv.crossFadeClips i (i + 1) (3/10),
         Draft2.GenEv.playClip (i + 1)]).countP Draft2.isPlayClip)
      = l.length := by
  induction l with
  | nil => rfl
  | cons a l ih =>
    simp [List.flatMap_cons, List.countP_append, List.countP_cons, ih,
      Draft2.isPlayClip]

theorem chain_countP_fadeStanding (l : List ℕ) :
    ((l.flatMap fun i =>
        [Draft2.GenEv.crossFadeClips i (i + 1) (3/10),
         Draft2.GenEv.playClip (i + 1)]).countP Draft2.isFadeToStanding)
      = 0 := by
  induction l with
  | nil => rfl
  | cons a l ih =>
    simp [List.flatMap_cons, List.countP_append, List.countP_cons, ih,
      Draft2.isFadeToStanding]

theorem chain_countP_idleFade (l : List ℕ) :
    ((l.flatMap fun i =>
        [Draft2.GenEv.crossFadeClips i (i + 1) (3/10),
         Draft2.GenEv.playClip (i + 1)]).countP Draft2.isDelayedIdleFade)
      = 0 := by
  induction l with
  | nil => rfl
  | cons a l ih =>
    simp [List.flatMap_cons, List.countP_append, List.countP_cons, ih,
      Draft2.isDelayedIdleFade]

/-- C3: a generated sequence of n valid clips (n at least 1, standing
and idle clip data present) produces exactly the trace: play clip 0,
then for each finish a 0.3 s cross-fade into the next clip and its
play, in list order, then exactly one 0.8 s cross-fade into the looping
standing action and exactly one 2500 ms delayed 0.5 s cross-fade from
standing into idle; the trace holds n generated-clip plays, one fade
into standing and one delayed fade into idle. -/
theorem generated_sequence_trace (n : ℕ) (hn : 1 ≤ n) :
    Draft2.runGeneratedSequence n true true =
      Draft2.GenEv.playClip 0 ::
        (((List.range (n - 1)).flatMap fun i =>
            [Draft2.GenEv.crossFadeClips i (i + 1) (3/10),
             Draft2.GenEv.playClip (i + 1)]) ++
         [Draft2.GenEv.crossFadeToStanding (4/5),
          Draft2.GenEv.playStanding,
          Draft2.GenEv.delayedPlayIdle 2500,
          Draft2.GenEv.delayedCrossFadeStandingToIdle 2500 (1/2)]) ∧
    (Draft2.runGeneratedSequence n true true).countP Draft2.isPlayClip
      = n ∧
    (Draft2.runGeneratedSequence n true true).countP
      Draft2.isFadeToStanding = 1 ∧
    (Draft2.runGeneratedSequence n true true).countP
      Draft2.isDelayedIdleFade = 1 := by
  obtain ⟨j, rfl⟩ : ∃ j, n = j + 1 := ⟨n - 1, by omega⟩
  have htr : Draft2.runGeneratedSequence (j + 1) true true =
      Draft2.GenEv.playClip 0 ::
        (((List.range ((j + 1) - 1)).flatMap fun i =>
            [Draft2.GenEv.crossFadeClips i (i + 1) (3/10),
             Draft2.GenEv.playClip (i + 1)]) ++
         [Draft2.GenEv.crossFadeToStanding (4/5),
          Draft2.GenEv.playStanding,
          Draft2.GenEv.delayedPlayIdle 2500,
          Draft2.GenEv.delayedCrossFadeStandingToIdle 2500 (1/2)]) := by
    unfold Draft2.runGeneratedSequence
    have hc := runFinishes_chain j 0
    rw [Nat.zero_add] at hc
    rw [List.range_eq_range', hc]
    rw [show (j + 1) - 1 = j from by omega, List.range_eq_range']
  refine ⟨htr, ?_, ?_, ?_⟩ <;>
    rw [htr] <;>
    simp [List.countP_cons, List.countP_append, chain_countP_play,
      chain_countP_fadeStanding, chain_countP_idleFade,
      Draft2.isPlayClip, Draft2.isFadeToStanding, Draft2.isDelayedIdleFade,
      Nat.add_sub_cancel]

theorem generated_sequence_trace_witness :
    Draft2.runGeneratedSequence 3 true true =
      Draft2.GenEv.playClip 0 ::
        (((List.range (3 - 1)).flatMap fun i =>
            [Draft2.GenEv.crossFadeClips i (i + 1) (3/10),
             Draft2.GenEv.playClip (i + 1)]) ++
         [Draft2.GenEv.crossFadeToStanding (4/5),
          Draft2.GenEv.playStanding,
          Draft2.GenEv.delayedPlayIdle 2500,
          Draft2.GenEv.delayedCrossFadeStandingToIdle 2500 (1/2)]) ∧
    (Draft2.runGeneratedSequence 3 true true).countP Draft2.isPlayClip
      = 3 ∧
    (Draft2.runGeneratedSequence 3 true true).countP
      Draft2.isFadeToStanding = 1 ∧
    (Draft2.runGeneratedSequence 3 true true).countP
      Draft2.isDelayedIdleFade = 1 :=
  generated_sequence_trace 3 (by decide)

end TalkingHead
